import Mathlib

/-!
Shallow embedding of `src/lib/stepper.hpp`, a stepper motor library that keeps
a motion state machine and a fixed-point (power-of-two shifted) table of
inter-step delays.

All `delay_t` fields are `uint32_t` in the source; they are embedded as `ℕ`
with an explicit `% U32` wherever the C++ arithmetic can overflow (left
shifts).  Right shifts and comparisons cannot overflow and are embedded
directly.  Floating point computations (`sqrt`, divisions on `float`) are kept
out of the integer state machine: the two places the source converts a float
to `uint32_t` (the ramp table entries in `acceleration` and
`delay_t(1e6 / speed)` in `target_speed`) enter the embedding as explicit
numeric parameters, and the float formulas themselves are embedded separately
over `ℝ` (`d0_real`, `delay0_real`).
-/

/-- Number of microstepping levels, `MICRO_LEVELS` in the source. -/
def MICRO_LEVELS : ℕ := 6

/-- Below this bound delays are shifted up for precision, `SHIFT_THRESHOLD = (1 << 30)`. -/
def SHIFT_THRESHOLD : ℕ := 2 ^ 30

/-- Modulus of the 32-bit unsigned arithmetic used for all `delay_t` fields. -/
def U32 : ℕ := 2 ^ 32

/-- The `state` enum of the C++ `stepper` struct. -/
inductive MState where
  | OFF
  | ACCEL
  | DECEL
  | TARGET_SPEED
deriving DecidableEq

/-- The mutable state of the C++ `stepper` struct (pin identities are dropped:
they never influence the fields below).  `delay0` is the `_delay0` array
(length `MICRO_LEVELS`), `delay` is `_delay`, `step` is the `_step`
bookkeeping byte. -/
structure Stepper where
  dir : ℤ
  pos : ℤ
  target_pos : ℤ
  accel_steps : ℕ
  micro : ℕ
  delay0 : List ℕ
  delay : ℕ
  smooth_delay : ℕ
  target_delay : ℕ
  shift : ℕ
  step : ℕ
  state : MState
deriving DecidableEq

/-- The private helper `stepper::is_stopped`:
`_pos == _target_pos and _accel_steps == 0`. -/
def is_stopped (s : Stepper) : Bool :=
  s.pos == s.target_pos && s.accel_steps == 0

/-- The private helper `stepper::shift_down`: divide every delay field by
`2 ^ _shift` and reset `_shift` to 0. -/
def shift_down (s : Stepper) : Stepper :=
  { s with
    delay0 := s.delay0.map (fun d => d >>> s.shift)
    delay := s.delay >>> s.shift
    target_delay := s.target_delay >>> s.shift
    smooth_delay := s.smooth_delay >>> s.shift
    shift := 0 }

/-- The quantity `std::max(std::max(_delay0[MICRO_LEVELS - 1], _target_delay), _smooth_delay)`
that seeds the doubling loop of `stepper::shift_up`. -/
def max_delay (s : Stepper) : ℕ :=
  max (max (s.delay0.getD (MICRO_LEVELS - 1) 0) s.target_delay) s.smooth_delay

/-- The doubling loop of `stepper::shift_up`
(`while (max_delay < SHIFT_THRESHOLD) { _shift += 1; max_delay <<= 1; }`),
embedded with explicit fuel: `none` means the loop has not exited within
`fuel` iterations.  `max_delay` is a `uint32_t`, hence the `% U32` on the
doubling. -/
def shift_loop (fuel sh md : ℕ) : Option ℕ :=
  match fuel with
  | 0 => none
  | f + 1 =>
    if md < SHIFT_THRESHOLD then shift_loop f (sh + 1) (md * 2 % U32) else some sh

/-- The shift exponent computed by the loop of `stepper::shift_up`.  31 units
of fuel always suffice when the seed is nonzero (at most 30 doublings reach
`SHIFT_THRESHOLD` from 1); for a zero seed the C++ loop never exits and this
total embedding falls back to 0 (see the termination claim). -/
def shift_amount (md : ℕ) : ℕ :=
  (shift_loop 31 0 md).getD 0

/-- The private helper `stepper::shift_up`: return unchanged when
`_shift != 0`, otherwise compute the shift exponent with the doubling loop and
multiply every delay field by `2 ^ _shift` (32-bit arithmetic). -/
def shift_up (s : Stepper) : Stepper :=
  if s.shift ≠ 0 then s
  else
    let k := shift_amount (max_delay s)
    { s with
      delay0 := s.delay0.map (fun d => d <<< k % U32)
      delay := s.delay <<< k % U32
      target_delay := s.target_delay <<< k % U32
      smooth_delay := s.smooth_delay <<< k % U32
      shift := k }

/-- `stepper::calibrate_position`: requires stopped state (silent no-op
otherwise), then sets `_pos` between `shift_down` and `shift_up`. -/
def calibrate_position (p : ℤ) (s : Stepper) : Stepper :=
  if is_stopped s then shift_up { shift_down s with pos := p } else s

/-- `stepper::acceleration`: requires stopped state (silent no-op otherwise).
Otherwise: `shift_down`, reload `_delay` from the (old, now downshifted) ramp
table at the current micro level, overwrite the ramp table, `shift_up`.

`tbl m` stands for the float computation
`uint32_t(sqrt(1/accel) * 0.676 * 1e6 * sqrt(1 << m))` of lines 282-284; the
real-valued formula itself is embedded as `delay0_real` below. -/
def acceleration (tbl : ℕ → ℕ) (s : Stepper) : Stepper :=
  if is_stopped s then
    let s1 := shift_down s
    let s2 := { s1 with delay := s1.delay0.getD s1.micro 0 }
    let s3 := { s2 with delay0 := (List.range MICRO_LEVELS).map tbl }
    shift_up s3
  else s

/-- `stepper::target_pos`: `_target_pos = pos << _micro;` (`int32_t` shift,
embedded as exact multiplication; signed overflow is UB in the source). -/
def target_pos (p : ℤ) (s : Stepper) : Stepper :=
  { s with target_pos := p * 2 ^ s.micro }

/-- `stepper::target_speed`: `shift_down`, set
`_target_delay = delay_t(1e6 / speed)` (the converted float enters as the
parameter `ntd`), then, when running (`!is_stopped() and _state != OFF`), set
`_state` to `DECEL` when `_target_delay > _delay` and to `ACCEL` otherwise;
finally `shift_up`. -/
def target_speed (ntd : ℕ) (s : Stepper) : Stepper :=
  let s1 := shift_down s
  let s2 := { s1 with target_delay := ntd }
  let s3 :=
    if is_stopped s2 = false ∧ s2.state ≠ MState.OFF then
      if s2.target_delay > s2.delay then { s2 with state := MState.DECEL }
      else { s2 with state := MState.ACCEL }
    else s2
  shift_up s3

/-- `stepper::step` as written in the source: a stub that takes no step,
changes no state and always returns the sentinel 0 ("arrived at target and
speed is 0"). -/
def step (s : Stepper) : Stepper × ℕ :=
  (s, 0)

/-- Iterating the state part of `step` n times. -/
def stepIter : ℕ → Stepper → Stepper
  | 0, s => s
  | n + 1, s => stepIter n (step s).1

/-- The `stepper::stepper` constructor: member initializers of lines 164-181
(`_dir(1)`, `_pos(0)`, `_target_pos(0)`, `_accel_steps(0)`, `_micro(0)`,
`_delay(0)`, `_smooth_delay(smooth_delay)`, `_target_delay(1e6)`, `_shift(0)`,
`_step(0)`, `_state(ACCEL)`), followed by the body's calls
`acceleration(DEFAULT_ACCEL)` and `target_speed(DEFAULT_TARGET_SPEED)`.
The `_delay0` array has no initializer in the source (indeterminate values);
it enters as the parameter `d0init`.  `tbl` and `ntd` stand for the float
conversions inside those two calls, as above. -/
def mkStepper (smooth : ℕ) (d0init : List ℕ) (tbl : ℕ → ℕ) (ntd : ℕ) : Stepper :=
  target_speed ntd (acceleration tbl
    { dir := 1
      pos := 0
      target_pos := 0
      accel_steps := 0
      micro := 0
      delay0 := d0init
      delay := 0
      smooth_delay := smooth
      target_delay := 1000000
      shift := 0
      step := 0
      state := MState.ACCEL })

/-- The base delay of `stepper::acceleration` line 282,
`float d0 = sqrt(1/accel) * 0.676 * 1e6;`, with float arithmetic embedded as
real arithmetic. -/
noncomputable def d0_real (accel : ℝ) : ℝ :=
  Real.sqrt (1 / accel) * 0.676 * 1e6

/-- The ramp table entry of `stepper::acceleration` lines 283-284,
`d0 * sqrt(1 << m)`, with float arithmetic embedded as real arithmetic (the
final `uint32_t` truncation is the `tbl` parameter of `acceleration`). -/
noncomputable def delay0_real (accel : ℝ) (m : ℕ) : ℝ :=
  d0_real accel * Real.sqrt ((2 : ℝ) ^ m)

/-- Clearing the low `k` bits of `n`: what a delay field retains after a
`shift_down` / `shift_up` round trip. -/
def clearLow (k n : ℕ) : ℕ :=
  n >>> k <<< k

/-! ### Helper lemmas about the shift loop and the delay fields -/

theorem shift_loop_succ (f sh md : ℕ) :
    shift_loop (f + 1) sh md =
      if md < SHIFT_THRESHOLD then shift_loop f (sh + 1) (md * 2 % U32) else some sh := rfl

theorem shift_loop_zero (fuel sh : ℕ) : shift_loop fuel sh 0 = none := by
  induction fuel generalizing sh with
  | zero => rfl
  | succ f ih =>
    have h : (0 : ℕ) < SHIFT_THRESHOLD := by norm_num [SHIFT_THRESHOLD]
    rw [shift_loop_succ, if_pos h]
    simpa using ih (sh + 1)

theorem shift_loop_spec :
    ∀ (n sh md : ℕ), 0 < md → SHIFT_THRESHOLD ≤ md * 2 ^ n →
      ∃ j, j ≤ n ∧ shift_loop (n + 1) sh md = some (sh + j) ∧
        SHIFT_THRESHOLD ≤ md * 2 ^ j ∧ ∀ i < j, md * 2 ^ i < SHIFT_THRESHOLD := by
  intro n
  induction n with
  | zero =>
    intro sh md hmd hge
    simp only [pow_zero, mul_one] at hge
    refine ⟨0, Nat.le_refl 0, ?_, by simpa using hge, by omega⟩
    rw [shift_loop_succ, if_neg (Nat.not_lt.mpr hge), Nat.add_zero]
  | succ n ih =>
    intro sh md hmd hge
    by_cases hth : md < SHIFT_THRESHOLD
    · have hU : md * 2 % U32 = md * 2 := by
        apply Nat.mod_eq_of_lt
        have h1 : SHIFT_THRESHOLD * 2 < U32 := by norm_num [SHIFT_THRESHOLD, U32]
        omega
      have hge2 : SHIFT_THRESHOLD ≤ md * 2 * 2 ^ n := by
        calc SHIFT_THRESHOLD ≤ md * 2 ^ (n + 1) := hge
        _ = md * 2 * 2 ^ n := by ring
      obtain ⟨j, hjle, hloop, hj1, hj2⟩ := ih (sh + 1) (md * 2) (by omega) hge2
      refine ⟨j + 1, by omega, ?_, ?_, ?_⟩
      · rw [shift_loop_succ, if_pos hth, hU, hloop]
        congr 1
        omega
      · calc SHIFT_THRESHOLD ≤ md * 2 * 2 ^ j := hj1
        _ = md * 2 ^ (j + 1) := by ring
      · intro i hi
        match i with
        | 0 => simpa using hth
        | i + 1 =>
          have h2 := hj2 i (by omega)
          calc md * 2 ^ (i + 1) = md * 2 * 2 ^ i := by ring
          _ < SHIFT_THRESHOLD := h2
    · refine ⟨0, by omega, ?_, by simpa using Nat.not_lt.mp hth, by omega⟩
      rw [shift_loop_succ, if_neg hth, Nat.add_zero]

theorem shift_amount_spec (md : ℕ) (h : 0 < md) :
    shift_loop 31 0 md = some (shift_amount md) ∧
    SHIFT_THRESHOLD ≤ md * 2 ^ shift_amount md ∧
    ∀ i < shift_amount md, md * 2 ^ i < SHIFT_THRESHOLD := by
  have hge : SHIFT_THRESHOLD ≤ md * 2 ^ 30 := by
    have h1 : 1 * 2 ^ 30 ≤ md * 2 ^ 30 := Nat.mul_le_mul_right _ h
    simpa [SHIFT_THRESHOLD] using h1
  obtain ⟨j, hjle, hloop, hj1, hj2⟩ := shift_loop_spec 30 0 md h hge
  have hloop31 : shift_loop 31 0 md = some (0 + j) := hloop
  have ha : shift_amount md = j := by
    simp [shift_amount, hloop31]
  rw [ha]
  refine ⟨by simpa using hloop31, hj1, hj2⟩

theorem shift_amount_eq (md σ : ℕ) (h0 : 0 < md)
    (h1 : SHIFT_THRESHOLD ≤ md * 2 ^ σ)
    (h2 : ∀ i < σ, md * 2 ^ i < SHIFT_THRESHOLD) :
    shift_amount md = σ := by
  obtain ⟨-, hj1, hj2⟩ := shift_amount_spec md h0
  rcases Nat.lt_trichotomy (shift_amount md) σ with h | h | h
  · exact absurd hj1 (Nat.not_le.mpr (h2 _ h))
  · exact h
  · exact absurd h1 (Nat.not_le.mpr (hj2 _ h))

theorem shift_up_pos (s : Stepper) : (shift_up s).pos = s.pos := by
  unfold shift_up; split <;> rfl

theorem shift_up_target_pos (s : Stepper) : (shift_up s).target_pos = s.target_pos := by
  unfold shift_up; split <;> rfl

theorem shift_up_accel_steps (s : Stepper) : (shift_up s).accel_steps = s.accel_steps := by
  unfold shift_up; split <;> rfl

theorem shift_up_state (s : Stepper) : (shift_up s).state = s.state := by
  unfold shift_up; split <;> rfl

theorem clearLow_le (k n : ℕ) : clearLow k n ≤ n := by
  simp only [clearLow, Nat.shiftLeft_eq, Nat.shiftRight_eq_div_pow]
  exact Nat.div_mul_le_self n (2 ^ k)

theorem sub_clearLow_lt (k n : ℕ) : n - clearLow k n < 2 ^ k := by
  have hp : 0 < 2 ^ k := Nat.pos_pow_of_pos k (by norm_num)
  have h1 := Nat.mod_lt n hp
  have h2 : 2 ^ k * (n / 2 ^ k) + n % 2 ^ k = n := Nat.div_add_mod n (2 ^ k)
  have h3 : n / 2 ^ k * 2 ^ k = 2 ^ k * (n / 2 ^ k) := Nat.mul_comm _ _
  simp only [clearLow, Nat.shiftLeft_eq, Nat.shiftRight_eq_div_pow, h3]
  omega

theorem getD_map_shiftRight (l : List ℕ) (i k : ℕ) :
    (l.map (fun d => d >>> k)).getD i 0 = l.getD i 0 >>> k := by
  induction l generalizing i with
  | nil => simp [Nat.zero_shiftRight]
  | cons a l ih =>
    match i with
    | 0 => rfl
    | i + 1 => simpa using ih i

theorem max_shiftRight (a b k : ℕ) : max a b >>> k = max (a >>> k) (b >>> k) := by
  simp only [Nat.shiftRight_eq_div_pow]
  rcases Nat.le_total a b with h | h
  · rw [Nat.max_eq_right h, Nat.max_eq_right (Nat.div_le_div_right h)]
  · rw [Nat.max_eq_left h, Nat.max_eq_left (Nat.div_le_div_right h)]

theorem max_delay_shift_down (s : Stepper) :
    max_delay (shift_down s) = max_delay s >>> s.shift := by
  simp only [max_delay, shift_down, getD_map_shiftRight, max_shiftRight]

/-! ### Concrete states used by the claim theorems -/

/-- A stepper built with the constructor defaults (ramp table value 213770 is
the level-0 float result for the default acceleration 10, target delay 100000
is `1e6/10`) whose target is then set one step ahead with `target_pos(1)`. -/
def sC1 : Stepper :=
  target_pos 1 (mkStepper 100 [0, 0, 0, 0, 0, 0] (fun _ => 213770) 100000)

/-- A stepper that is not stopped (position 0, target 40, three accel steps). -/
def sMoving : Stepper :=
  { dir := 1, pos := 0, target_pos := 40, accel_steps := 3, micro := 0,
    delay0 := [213770, 302315, 427541, 604631, 855083, 1209262],
    delay := 213770, smooth_delay := 800, target_delay := 100000,
    shift := 0, step := 0, state := MState.ACCEL }

/-! ### Claim theorems -/

/-- Claim C1: the arrival property fails on the code: `stepper::step` is a
stub.  With the target one step away (`sC1.pos = 0`, `sC1.target_pos = 1`),
every call to `step` leaves the state unchanged and returns the sentinel 0
("arrived"), so the position error never decreases and the target is never
reached. -/
theorem c1_step_is_a_stub :
    sC1.pos ≠ sC1.target_pos ∧ (∀ n, stepIter n sC1 = sC1) ∧ (step sC1).2 = 0 := by
  refine ⟨by decide, ?_, rfl⟩
  intro n
  induction n with
  | zero => rfl
  | succ n ih => exact ih

/-- Claim C2: when the engine is not stopped, `acceleration` and
`calibrate_position` are silent no-ops: the whole state, in particular the
`_delay0` table and `_pos`, is returned bit-for-bit unchanged. -/
theorem c2_guarded_mutation (s : Stepper) (tbl : ℕ → ℕ) (p : ℤ)
    (h : is_stopped s = false) :
    acceleration tbl s = s ∧ calibrate_position p s = s := by
  constructor
  · simp [acceleration, h]
  · simp [calibrate_position, h]

/-- Witness for C2 at a concrete moving state. -/
theorem c2_guarded_mutation_witness :
    is_stopped sMoving = false ∧
    acceleration (fun m => 213770 * (m + 1)) sMoving = sMoving ∧
    calibrate_position 5 sMoving = sMoving :=
  ⟨by decide, (c2_guarded_mutation sMoving (fun m => 213770 * (m + 1)) 5 (by decide)).1,
    (c2_guarded_mutation sMoving (fun m => 213770 * (m + 1)) 5 (by decide)).2⟩

/-- Claim C9 counterexample: immediately after construction the phase is
`ACCEL`, not `OFF` — the constructor's member initializer list sets
`_state(ACCEL)` (line 181). -/
theorem c9_counterexample :
    (mkStepper 100 [0, 0, 0, 0, 0, 0] (fun _ => 213770) 100000).state = MState.ACCEL ∧
    MState.ACCEL ≠ MState.OFF := by
  exact ⟨by decide, by decide⟩

/-- Claim C9 (amended): immediately after construction, before any `on()`
call, the motion phase is `ACCEL` (for every smooth delay, initial table
content, ramp table and target delay). -/
theorem c9_amended_initial_phase_is_accel
    (smooth : ℕ) (d0init : List ℕ) (tbl : ℕ → ℕ) (ntd : ℕ) :
    (mkStepper smooth d0init tbl ntd).state = MState.ACCEL := rfl

/-- Claim C4: while moving (not stopped, phase not `OFF`), a `target_speed`
call whose new target delay exceeds the current (unshifted) delay forces the
phase to `DECEL`, whatever the old phase (in particular `ACCEL` and
`TARGET_SPEED`). -/
theorem c4_speed_decrease_forces_decel (s : Stepper) (ntd : ℕ)
    (h1 : is_stopped s = false) (h2 : s.state ≠ MState.OFF)
    (h3 : s.delay >>> s.shift < ntd) :
    (target_speed ntd s).state = MState.DECEL := by
  simp only [target_speed, shift_up_state]
  have hc : is_stopped { shift_down s with target_delay := ntd } = false ∧
      ({ shift_down s with target_delay := ntd } : Stepper).state ≠ MState.OFF := by
    constructor
    · simpa [is_stopped, shift_down] using h1
    · simpa [shift_down] using h2
  rw [if_pos hc, if_pos (by simpa [shift_down] using h3)]

/-- A stepper cruising at `TARGET_SPEED` with current delay 1000,
50 steps short of its target. -/
def sC4w : Stepper :=
  { dir := 1, pos := 0, target_pos := 50, accel_steps := 7, micro := 0,
    delay0 := [213770, 302315, 427541, 604631, 855083, 1209262],
    delay := 1000, smooth_delay := 800, target_delay := 1000,
    shift := 0, step := 0, state := MState.TARGET_SPEED }

/-- Witness for C4: cruising at `TARGET_SPEED` (delay 1000), lowering the
speed so the new target delay is 2000 switches the phase to `DECEL`. -/
theorem c4_witness :
    is_stopped sC4w = false ∧ sC4w.state ≠ MState.OFF ∧
    sC4w.delay >>> sC4w.shift < 2000 ∧
    (target_speed 2000 sC4w).state = MState.DECEL :=
  ⟨by decide, by decide, by decide,
    c4_speed_decrease_forces_decel sC4w 2000 (by decide) (by decide) (by decide)⟩

/-- A stepper that is decelerating (phase `DECEL`, current delay 500), still
10 steps short of its target. -/
def sC5c : Stepper :=
  { dir := 1, pos := 0, target_pos := 10, accel_steps := 3, micro := 0,
    delay0 := [213770, 302315, 427541, 604631, 855083, 1209262],
    delay := 500, smooth_delay := 800, target_delay := 2000,
    shift := 0, step := 0, state := MState.DECEL }

/-- Claim C5 counterexample: a speed increase while in phase `DECEL`
(new target delay 100 is at or below the current delay 500) does switch the
phase out of `DECEL`: `target_speed` sets it to `ACCEL` immediately
(the `else` branch of lines 305-310). -/
theorem c5_counterexample :
    sC5c.state = MState.DECEL ∧ is_stopped sC5c = false ∧
    (100 : ℕ) ≤ sC5c.delay >>> sC5c.shift ∧
    (target_speed 100 sC5c).state = MState.ACCEL ∧
    MState.ACCEL ≠ MState.DECEL := by decide

/-- Claim C5 (amended): while moving (not stopped, phase not `OFF`, in
particular while in `DECEL`), a `target_speed` call whose new target delay is
at or below the current (unshifted) delay immediately sets the phase to
`ACCEL`: the deceleration in progress is abandoned and reversed on that very
call, not deferred. -/
theorem c5_amended_speed_increase_reverses_to_accel (s : Stepper) (ntd : ℕ)
    (h1 : is_stopped s = false) (h2 : s.state ≠ MState.OFF)
    (h3 : ntd ≤ s.delay >>> s.shift) :
    (target_speed ntd s).state = MState.ACCEL := by
  simp only [target_speed, shift_up_state]
  have hc : is_stopped { shift_down s with target_delay := ntd } = false ∧
      ({ shift_down s with target_delay := ntd } : Stepper).state ≠ MState.OFF := by
    constructor
    · simpa [is_stopped, shift_down] using h1
    · simpa [shift_down] using h2
  rw [if_pos hc, if_neg (by simpa [shift_down] using Nat.not_lt.mpr h3)]

/-- Witness for the amended C5 at the concrete decelerating state. -/
theorem c5_amended_witness :
    is_stopped sC5c = false ∧ sC5c.state ≠ MState.OFF ∧
    (100 : ℕ) ≤ sC5c.delay >>> sC5c.shift ∧
    (target_speed 100 sC5c).state = MState.ACCEL :=
  ⟨by decide, by decide, by decide,
    c5_amended_speed_increase_reverses_to_accel sC5c 100 (by decide) (by decide) (by decide)⟩

/-- A stopped stepper with `shift = 0` whose largest delay quantity is
`2^29` (half the shift threshold). -/
def sC3c : Stepper :=
  { dir := 1, pos := 0, target_pos := 0, accel_steps := 0, micro := 0,
    delay0 := [0, 0, 0, 0, 0, 2 ^ 29], delay := 5, smooth_delay := 7,
    target_delay := 2 ^ 29, shift := 0, step := 0, state := MState.ACCEL }

/-- The same state with a nonzero shift exponent. -/
def sC3b : Stepper :=
  { sC3c with shift := 3 }

/-- Claim C3 counterexample: with `max(start_delay[5], target_delay,
smooth_delay) = 2^29`, shift 0 already satisfies `max << 0 < SHIFT_THRESHOLD`,
yet `shift_up` picks shift 1 — the loop exits only once the doubled maximum is
at or above the threshold — and afterwards `target_delay` is `2^30`, which is
not strictly under `SHIFT_THRESHOLD`: the delay quantities are not kept under
the threshold, and the computed shift is not the smallest one keeping the
maximum below it. -/
theorem c3_counterexample :
    max_delay sC3c <<< 0 < SHIFT_THRESHOLD ∧
    (shift_up sC3c).shift = 1 ∧
    (shift_up sC3c).target_delay = 2 ^ 30 ∧
    ¬ (shift_up sC3c).target_delay < SHIFT_THRESHOLD := by decide

/-- Claim C3 (amended): `shift_up` is a no-op when `shift ≠ 0`; otherwise,
when `max(start_delay[last_level], target_delay, smooth_delay)` is nonzero, it
computes the smallest `shift` such that `max << shift` reaches at least
`SHIFT_THRESHOLD` (so every strictly smaller exponent leaves the maximum under
the threshold, and the shifted maximum lands in
`[SHIFT_THRESHOLD, 2 * SHIFT_THRESHOLD)`), then multiplies every delay field
by `2^shift` in 32-bit arithmetic. -/
theorem c3_amended_shift_up_characterization (s : Stepper) :
    (s.shift ≠ 0 → shift_up s = s) ∧
    (s.shift = 0 → 0 < max_delay s →
      (shift_up s).shift = shift_amount (max_delay s) ∧
      SHIFT_THRESHOLD ≤ max_delay s * 2 ^ shift_amount (max_delay s) ∧
      (∀ j < shift_amount (max_delay s), max_delay s * 2 ^ j < SHIFT_THRESHOLD) ∧
      (shift_up s).delay0 = s.delay0.map (fun d => d <<< shift_amount (max_delay s) % U32) ∧
      (shift_up s).delay = s.delay <<< shift_amount (max_delay s) % U32 ∧
      (shift_up s).target_delay = s.target_delay <<< shift_amount (max_delay s) % U32 ∧
      (shift_up s).smooth_delay = s.smooth_delay <<< shift_amount (max_delay s) % U32) := by
  constructor
  · intro h
    simp [shift_up, h]
  · intro h0 hpos
    obtain ⟨-, h1, h2⟩ := shift_amount_spec (max_delay s) hpos
    refine ⟨?_, h1, h2, ?_, ?_, ?_, ?_⟩ <;> simp [shift_up, h0]

/-- Witness for the amended C3: the no-op branch at `sC3b` (shift 3) and the
characterization at `sC3c` (shift 0, maximum `2^29`). -/
theorem c3_amended_witness :
    shift_up sC3b = sC3b ∧
    ((shift_up sC3c).shift = shift_amount (max_delay sC3c) ∧
      SHIFT_THRESHOLD ≤ max_delay sC3c * 2 ^ shift_amount (max_delay sC3c) ∧
      (∀ j < shift_amount (max_delay sC3c), max_delay sC3c * 2 ^ j < SHIFT_THRESHOLD) ∧
      (shift_up sC3c).delay0 = sC3c.delay0.map (fun d => d <<< shift_amount (max_delay sC3c) % U32) ∧
      (shift_up sC3c).delay = sC3c.delay <<< shift_amount (max_delay sC3c) % U32 ∧
      (shift_up sC3c).target_delay = sC3c.target_delay <<< shift_amount (max_delay sC3c) % U32 ∧
      (shift_up sC3c).smooth_delay = sC3c.smooth_delay <<< shift_amount (max_delay sC3c) % U32) :=
  ⟨(c3_amended_shift_up_characterization sC3b).1 (by decide),
    (c3_amended_shift_up_characterization sC3c).2 (by decide) (by decide)⟩

/-- Claim C10: the doubling loop of `shift_up`, entered with `shift == 0`,
terminates exactly when the seed `max(start_delay[MICRO_LEVELS-1],
target_delay, smooth_delay)` is nonzero: with seed 0 the loop yields no
result for any amount of fuel (`max_delay <<= 1` keeps it 0, forever under the
threshold), while any nonzero seed exits within 31 iterations; and the seed is
0 exactly when all three delay quantities are 0. -/
theorem c10_shift_loop_termination :
    (∀ fuel sh, shift_loop fuel sh 0 = none) ∧
    (∀ md, 0 < md → ∃ k, shift_loop 31 0 md = some k) ∧
    (∀ s : Stepper, max_delay s = 0 ↔
      s.delay0.getD (MICRO_LEVELS - 1) 0 = 0 ∧ s.target_delay = 0 ∧ s.smooth_delay = 0) := by
  refine ⟨shift_loop_zero, ?_, ?_⟩
  · intro md h
    exact ⟨shift_amount md, (shift_amount_spec md h).1⟩
  · intro s
    simp [max_delay, Nat.max_eq_zero_iff, and_assoc]

/-- Witness for C10: the loop diverges on seed 0 (here with fuel 40) and
terminates on seed 1. -/
theorem c10_witness :
    shift_loop 40 0 0 = none ∧ ∃ k, shift_loop 31 0 1 = some k :=
  ⟨c10_shift_loop_termination.1 40 0, c10_shift_loop_termination.2.1 1 (by decide)⟩

theorem clearLow_mod (k n : ℕ) (h : n < U32) : n >>> k <<< k % U32 = clearLow k n :=
  Nat.mod_eq_of_lt (lt_of_le_of_lt (clearLow_le k n) h)

theorem map_round_trip (l : List ℕ) (k : ℕ) (hb : ∀ d ∈ l, d < U32) :
    (l.map (fun d => d >>> k)).map (fun d => d <<< k % U32) = l.map (clearLow k) := by
  induction l with
  | nil => rfl
  | cons a t ih =>
    simp only [List.map_cons, List.cons.injEq]
    exact ⟨clearLow_mod k a (hb a (List.mem_cons_self a t)),
      ih (fun d hd => hb d (List.mem_cons_of_mem a hd))⟩

theorem shift_up_of_shift_zero (s : Stepper) (h : s.shift = 0) :
    shift_up s =
      { s with
        delay0 := s.delay0.map (fun d => d <<< shift_amount (max_delay s) % U32)
        delay := s.delay <<< shift_amount (max_delay s) % U32
        target_delay := s.target_delay <<< shift_amount (max_delay s) % U32
        smooth_delay := s.smooth_delay <<< shift_amount (max_delay s) % U32
        shift := shift_amount (max_delay s) } := by
  simp [shift_up, h]

theorem round_trip_shift_amount (s : Stepper) (hσ : s.shift ≤ 30)
    (hmd1 : SHIFT_THRESHOLD ≤ max_delay s)
    (hmd2 : max_delay s < 2 * SHIFT_THRESHOLD) :
    shift_amount (max_delay (shift_down s)) = s.shift := by
  have hTH : SHIFT_THRESHOLD = 2 ^ 30 := rfl
  have h2σ : 0 < (2 : ℕ) ^ s.shift := Nat.pos_pow_of_pos _ (by norm_num)
  have hσpow : (2 : ℕ) ^ s.shift ≤ 2 ^ 30 := Nat.pow_le_pow_right (by norm_num) hσ
  rw [max_delay_shift_down, Nat.shiftRight_eq_div_pow]
  apply shift_amount_eq
  · exact (Nat.one_le_div_iff h2σ).mpr (le_trans hσpow (by omega))
  · have e1 : (2 : ℕ) ^ (30 - s.shift) * 2 ^ s.shift = 2 ^ 30 := by
      rw [← pow_add]
      congr 1
      omega
    have e2 : 2 ^ (30 - s.shift) ≤ max_delay s / 2 ^ s.shift := by
      rw [Nat.le_div_iff_mul_le h2σ, e1]
      omega
    calc SHIFT_THRESHOLD = 2 ^ (30 - s.shift) * 2 ^ s.shift := by rw [hTH, e1]
    _ ≤ max_delay s / 2 ^ s.shift * 2 ^ s.shift := Nat.mul_le_mul_right _ e2
  · intro i hi
    have hle : max_delay s / 2 ^ s.shift * 2 ^ s.shift ≤ max_delay s :=
      Nat.div_mul_le_self _ _
    have h1 : max_delay s / 2 ^ s.shift * 2 ^ (i + 1) ≤
        max_delay s / 2 ^ s.shift * 2 ^ s.shift :=
      Nat.mul_le_mul_left _ (Nat.pow_le_pow_right (by norm_num) (by omega))
    have h2 : max_delay s / 2 ^ s.shift * 2 ^ (i + 1) =
        max_delay s / 2 ^ s.shift * 2 ^ i * 2 := by ring
    omega

/-- A stepper with shift exponent 2 whose `target_delay` (7) has nonzero low
bits, and whose stored maximum delay quantity is in
`[SHIFT_THRESHOLD, 2 * SHIFT_THRESHOLD)`. -/
def sC8c : Stepper :=
  { dir := 1, pos := 0, target_pos := 0, accel_steps := 0, micro := 0,
    delay0 := [0, 0, 0, 0, 0, 2 ^ 30], delay := 0, smooth_delay := 0,
    target_delay := 7, shift := 2, step := 0, state := MState.ACCEL }

/-- Claim C8 counterexample: with `shift = 2` and `target_delay = 7`,
`shift_down` then `shift_up` yields `target_delay = 4`: the field is off by
3, more than the rounding error of one bit, because both low bits are lost. -/
theorem c8_counterexample :
    sC8c.target_delay = 7 ∧
    (shift_up (shift_down sC8c)).target_delay = 4 ∧
    ¬ sC8c.target_delay - (shift_up (shift_down sC8c)).target_delay ≤ 1 := by
  decide

/-- Claim C8 (amended): for a state whose stored maximum delay quantity lies
in `[SHIFT_THRESHOLD, 2 * SHIFT_THRESHOLD)` (the shape every `shift_up`
establishes), with `shift ≤ 30` and all delay fields within 32 bits,
`shift_down` followed immediately by `shift_up` restores the same `shift`
exponent and restores every delay field to its prior value with its low
`shift` bits cleared: the error is below `2^shift` (not one bit), and fields
whose low `shift` bits are zero are restored exactly. -/
theorem c8_amended_round_trip (s : Stepper) (hσ : s.shift ≤ 30)
    (hmd1 : SHIFT_THRESHOLD ≤ max_delay s)
    (hmd2 : max_delay s < 2 * SHIFT_THRESHOLD)
    (hb0 : ∀ d ∈ s.delay0, d < U32) (hb1 : s.delay < U32)
    (hb2 : s.target_delay < U32) (hb3 : s.smooth_delay < U32) :
    (shift_up (shift_down s)).shift = s.shift ∧
    (shift_up (shift_down s)).delay0 = s.delay0.map (clearLow s.shift) ∧
    (shift_up (shift_down s)).delay = clearLow s.shift s.delay ∧
    (shift_up (shift_down s)).target_delay = clearLow s.shift s.target_delay ∧
    (shift_up (shift_down s)).smooth_delay = clearLow s.shift s.smooth_delay ∧
    ∀ n : ℕ, clearLow s.shift n ≤ n ∧ n - clearLow s.shift n < 2 ^ s.shift := by
  have hkk : shift_amount (max_delay (shift_down s)) = s.shift :=
    round_trip_shift_amount s hσ hmd1 hmd2
  rw [shift_up_of_shift_zero (shift_down s) rfl, hkk]
  refine ⟨rfl, ?_, ?_, ?_, ?_, fun n => ⟨clearLow_le _ _, sub_clearLow_lt _ _⟩⟩
  · exact map_round_trip s.delay0 s.shift hb0
  · exact clearLow_mod s.shift s.delay hb1
  · exact clearLow_mod s.shift s.target_delay hb2
  · exact clearLow_mod s.shift s.smooth_delay hb3

/-- A stepper with shift exponent 3 whose stored maximum delay quantity
(`target_delay = 2^30 + 8`) is in `[SHIFT_THRESHOLD, 2 * SHIFT_THRESHOLD)`. -/
def sC8w : Stepper :=
  { dir := 1, pos := 4, target_pos := 4, accel_steps := 0, micro := 1,
    delay0 := [8, 16, 24, 32, 40, 2 ^ 30], delay := 64, smooth_delay := 800,
    target_delay := 2 ^ 30 + 8, shift := 3, step := 0,
    state := MState.TARGET_SPEED }

/-- Witness for the amended C8 at a concrete state with shift 3 and mixed
low bits. -/
theorem c8_amended_witness :
    sC8w.shift ≤ 30 ∧ SHIFT_THRESHOLD ≤ max_delay sC8w ∧
    max_delay sC8w < 2 * SHIFT_THRESHOLD ∧
    ((shift_up (shift_down sC8w)).shift = sC8w.shift ∧
      (shift_up (shift_down sC8w)).delay0 = sC8w.delay0.map (clearLow sC8w.shift) ∧
      (shift_up (shift_down sC8w)).delay = clearLow sC8w.shift sC8w.delay ∧
      (shift_up (shift_down sC8w)).target_delay = clearLow sC8w.shift sC8w.target_delay ∧
      (shift_up (shift_down sC8w)).smooth_delay = clearLow sC8w.shift sC8w.smooth_delay ∧
      ∀ n : ℕ, clearLow sC8w.shift n ≤ n ∧ n - clearLow sC8w.shift n < 2 ^ sC8w.shift) :=
  ⟨by decide, by decide, by decide,
    c8_amended_round_trip sC8w (by decide) (by decide) (by decide) (by decide)
      (by decide) (by decide) (by decide)⟩

/-- Claim C6: with the float arithmetic of `acceleration` read as real
arithmetic, the ramp table entry for microstep level `m` is
`sqrt(1/accel) * 0.676 * 1e6 * sqrt(2^m)`, and for a positive acceleration the
entries grow strictly with the level: finer microstepping levels get a larger
tabulated start delay. -/
theorem c6_ramp_table_formula (accel : ℝ) (h : 0 < accel) :
    (∀ m : ℕ,
      delay0_real accel m = Real.sqrt (1 / accel) * 0.676 * 1e6 * Real.sqrt ((2 : ℝ) ^ m)) ∧
    StrictMono (delay0_real accel) := by
  constructor
  · intro m
    rfl
  · apply strictMono_nat_of_lt_succ
    intro m
    unfold delay0_real
    have hd0 : 0 < d0_real accel := by
      have h1 : 0 < Real.sqrt (1 / accel) := Real.sqrt_pos.mpr (by positivity)
      have h2 : 0 < Real.sqrt (1 / accel) * 0.676 := by nlinarith
      have h3 : 0 < Real.sqrt (1 / accel) * 0.676 * 1e6 := by nlinarith
      exact h3
    apply mul_lt_mul_of_pos_left _ hd0
    apply Real.sqrt_lt_sqrt (by positivity)
    have h4 : 0 < (2 : ℝ) ^ m := by positivity
    calc (2 : ℝ) ^ m < 2 ^ m + 2 ^ m := by nlinarith
    _ = 2 ^ (m + 1) := by ring

/-- Witness for C6 at acceleration 1. -/
theorem c6_witness :
    (0 : ℝ) < 1 ∧
    ((∀ m : ℕ,
        delay0_real 1 m = Real.sqrt (1 / 1) * 0.676 * 1e6 * Real.sqrt ((2 : ℝ) ^ m)) ∧
      StrictMono (delay0_real 1)) :=
  ⟨by norm_num, c6_ramp_table_formula 1 (by norm_num)⟩

/-- Claim C7 counterexample: at acceleration 1 the level-1 table entry is
`676000 * sqrt 2`, not `start_delay[0] / sqrt(2^1) = 676000 / sqrt 2`: the
code multiplies by `sqrt(2^level)`, it does not divide. -/
theorem c7_counterexample :
    delay0_real 1 1 ≠ delay0_real 1 0 / Real.sqrt ((2 : ℝ) ^ 1) := by
  have hs : (1 : ℝ) < Real.sqrt 2 := by
    rw [show (1 : ℝ) = Real.sqrt 1 by rw [Real.sqrt_one]]
    exact Real.sqrt_lt_sqrt (by norm_num) (by norm_num)
  have h0 : delay0_real 1 0 = 676000 := by
    norm_num [delay0_real, d0_real, Real.sqrt_one]
  have h1 : delay0_real 1 1 = 676000 * Real.sqrt 2 := by
    norm_num [delay0_real, d0_real, Real.sqrt_one]
  rw [h0, h1, pow_one]
  apply ne_of_gt
  calc (676000 : ℝ) / Real.sqrt 2 < 676000 := by
        apply div_lt_self (by norm_num) hs
  _ < 676000 * Real.sqrt 2 := by
        nlinarith

/-- Claim C7 (amended): every regenerated ramp table entry satisfies
`start_delay[level] = start_delay[0] * sqrt(2^level)`: entries grow by the
factor `sqrt(2^level)` in the direction of finer microstep levels. -/
theorem c7_amended_table_grows (accel : ℝ) (m : ℕ) :
    delay0_real accel m = delay0_real accel 0 * Real.sqrt ((2 : ℝ) ^ m) := by
  simp [delay0_real, Real.sqrt_one]
